import Mathlib

/-!
Verification of the RoboKhutt text-rendering utilities
(`src/img_utilities.py`): a single-shot renderer `render_text_image`
with a nine-anchor placement table, and a `TextImageDataset` that
enumerates every string of length 0 to `max_length` over an alphabet
and renders each one center-anchored.

External library behaviour is modelled by its documented contract:
Pillow's `draw.textbbox((0, 0), t, font=font)` returns the ink bounding
box `(left, top, right, bottom)` of `t` relative to the draw origin,
and `draw.text((x, y), t, font=font)` inks exactly that box shifted by
`(x, y)`.  A font is abstracted to the two measurements the code reads
from it; Arabic reshaping followed by bidi reordering is an abstract
`String → String` parameter; Python's floor division `//` is
`Int.fdiv`.
-/

namespace RoboKhutt

/-- Ink bounding box `(left, top, right, bottom)` as returned by
Pillow's `draw.textbbox((0, 0), text, font=font)`, relative to the draw
origin.  Inked pixels occupy rows `top ≤ y < bottom` and columns
`left ≤ x < right`. -/
structure BBox where
  left : Int
  top : Int
  right : Int
  bottom : Int
  deriving DecidableEq, Repr

/-- A loaded font, abstracted to the two measurements the code uses:
`draw.textbbox((0, 0), text, font=font)` and `font.getmetrics()[1]`
(the descent). -/
structure Font where
  bbox : String → BBox
  descent : Int

/-- The content of a rendered image as `render_text_image` determines
it: canvas size, background colour, the (bidi-processed) string that is
drawn, the draw origin handed to `draw.text`, and the fill colour. -/
structure RenderSpec where
  width : Int
  height : Int
  background : Nat × Nat × Nat
  drawnText : String
  origin : Int × Int
  fill : Nat × Nat × Nat
  deriving DecidableEq, Repr

/-- Lines 30-34 and 97-102: the string actually drawn — the bidi
reordering of the reshaped text when `is_arabic`, the text itself
otherwise. -/
def bidiProcessed (bidi : String → String) (is_arabic : Bool) (text : String) : String :=
  if is_arabic then bidi text else text

/-- Line 38: `text_width = text_bbox[2] - text_bbox[0]`. -/
def text_width (font : Font) (s : String) : Int :=
  (font.bbox s).right - (font.bbox s).left

/-- Line 39: `text_height = text_bbox[3] - text_bbox[1]`. -/
def text_height (font : Font) (s : String) : Int :=
  (font.bbox s).bottom - (font.bbox s).top

/-- The nine anchor names that key the `positions` table (lines 42-52). -/
def anchorNames : List String :=
  ["top-left", "top-center", "top-right", "center-left", "center",
   "center-right", "bottom-left", "bottom-center", "bottom-right"]

/-- Lines 42-54: the `positions` table looked up with Python's
`positions.get(position, (0, 0))` default.  `//` is floor division. -/
def positionsGet (position : String) (W H text_width text_height : Int) : Int × Int :=
  if position = "top-left" then (0, 0)
  else if position = "top-center" then ((W - text_width).fdiv 2, 0)
  else if position = "top-right" then (W - text_width, 0)
  else if position = "center-left" then (0, (H - text_height).fdiv 2)
  else if position = "center" then ((W - text_width).fdiv 2, (H - text_height).fdiv 2)
  else if position = "center-right" then (W - text_width, (H - text_height).fdiv 2)
  else if position = "bottom-left" then (0, H - text_height)
  else if position = "bottom-center" then ((W - text_width).fdiv 2, H - text_height)
  else if position = "bottom-right" then (W - text_width, H - text_height)
  else (0, 0)

/-- Line 57: `position in ['bottom-left', 'bottom-center', 'bottom-right']`. -/
def isBottomAnchor (position : String) : Bool :=
  decide (position ∈ (["bottom-left", "bottom-center", "bottom-right"] : List String))

/-- The layout of `render_text_image` (lines 22-63) once the font has
loaded: bidi-process the text, measure its bounding box, look up the
anchor origin, shift bottom anchors up by the descent, and draw black
on a white canvas. -/
def layout (font : Font) (bidi : String → String) (text : String)
    (image_size : Int × Int) (position : String) (is_arabic : Bool) : RenderSpec :=
  let bidi_text := bidiProcessed bidi is_arabic text
  let tw := text_width font bidi_text
  let th := text_height font bidi_text
  let p := positionsGet position image_size.1 image_size.2 tw th
  let y := if isBottomAnchor position then p.2 - font.descent else p.2
  { width := image_size.1
    height := image_size.2
    background := (255, 255, 255)
    drawnText := bidi_text
    origin := (p.1, y)
    fill := (0, 0, 0) }

/-- `render_text_image(text, image_size, font_name, font_size, position,
is_arabic)` (lines 9-63).  `ImageFont.truetype(font_name, font_size)`
(line 27) is modelled by its outcome `load`: a failure propagates to
the caller, otherwise the layout runs on the loaded font. -/
def render_text_image (load : Except String Font) (bidi : String → String)
    (text : String) (image_size : Int × Int) (position : String)
    (is_arabic : Bool) : Except String RenderSpec :=
  match load with
  | Except.error e => Except.error e
  | Except.ok font => Except.ok (layout font bidi text image_size position is_arabic)

/-- Pillow contract: `draw.text((x, y), t, font=font)` inks exactly the
box `draw.textbbox((x, y), t, font=font)`, which is the origin-relative
box shifted by the draw origin. -/
def inkBox (font : Font) (r : RenderSpec) : BBox :=
  let b := font.bbox r.drawnText
  { left := r.origin.1 + b.left
    top := r.origin.2 + b.top
    right := r.origin.1 + b.right
    bottom := r.origin.2 + b.bottom }

/-- The axis-aligned box of the measured text extents placed at the draw
origin: the rectangle that the arithmetic of lines 37-54 positions. -/
def measuredBox (font : Font) (r : RenderSpec) : BBox :=
  let b := font.bbox r.drawnText
  { left := r.origin.1
    top := r.origin.2
    right := r.origin.1 + (b.right - b.left)
    bottom := r.origin.2 + (b.bottom - b.top) }

/-- A box is horizontally centered in a canvas of width `W`, within the
one-pixel tolerance of integer division, when its left and right
margins differ by at most one. -/
def hCentered (W : Int) (b : BBox) : Prop :=
  ((W - b.right) - b.left).natAbs ≤ 1

/-- Vertical counterpart of `hCentered`. -/
def vCentered (H : Int) (b : BBox) : Prop :=
  ((H - b.bottom) - b.top).natAbs ≤ 1

instance (W : Int) (b : BBox) : Decidable (hCentered W b) := by
  unfold hCentered
  infer_instance

instance (H : Int) (b : BBox) : Decidable (vCentered H b) := by
  unfold vCentered
  infer_instance

/-- The Cartesian power in `itertools.product(alphabet, repeat=n)` order:
the rightmost position varies fastest, so index order is lexicographic
in the alphabet's own order. -/
def productRepeat (alphabet : List Char) : Nat → List (List Char)
  | 0 => [[]]
  | n + 1 => alphabet.flatMap fun c => (productRepeat alphabet n).map fun t => c :: t

/-- `TextImageDataset.generate_all_combinations` (lines 115-122):
`texts = ['']`, then for each `length` in `1 .. max_length` every
`''.join(combination)` for `combination` in
`product(alphabet, repeat=length)` is appended. -/
def generate_all_combinations (alphabet : List Char) (max_length : Nat) : List String :=
  [""] ++ (List.range max_length).flatMap fun i =>
    (productRepeat alphabet (i + 1)).map fun cs => String.mk cs

/-- `TextImageDataset.__init__` state (lines 66-77).  The font name and
size are carried as the outcome of `ImageFont.truetype(font_name,
font_size)` (`fontLoad`) together with `ImageFont.load_default()`
(`defaultFont`). -/
structure TextImageDataset where
  alphabet : List Char
  max_length : Nat
  fontLoad : Except String Font
  defaultFont : Font
  image_size : Int × Int
  is_arabic : Bool

/-- `self.texts = self.generate_all_combinations()` (line 73). -/
def TextImageDataset.texts (d : TextImageDataset) : List String :=
  generate_all_combinations d.alphabet d.max_length

/-- `TextImageDataset.__len__` (lines 79-80): `len(self.texts)`. -/
def TextImageDataset.len (d : TextImageDataset) : Nat :=
  d.texts.length

/-- `TextImageDataset.render_text_image` (lines 88-113): the hardcoded
center-anchored render, with the `try/except IOError` fallback to the
default font. -/
def TextImageDataset.render_text_image (d : TextImageDataset)
    (bidi : String → String) (text : String) : RenderSpec :=
  let font := match d.fontLoad with
    | Except.ok f => f
    | Except.error _ => d.defaultFont
  let bidi_text := bidiProcessed bidi d.is_arabic text
  let tw := text_width font bidi_text
  let th := text_height font bidi_text
  let text_position := ((d.image_size.1 - tw).fdiv 2, (d.image_size.2 - th).fdiv 2)
  { width := d.image_size.1
    height := d.image_size.2
    background := (255, 255, 255)
    drawnText := bidi_text
    origin := text_position
    fill := (0, 0, 0) }

/-- `transforms.Normalize((0.5,), (0.5,))` (line 76) on one channel of a
`ToTensor` output: `x ↦ (x - 0.5) / 0.5`. -/
def normalizeChannel (x : ℚ) : ℚ :=
  (x - 0.5) / 0.5

/-- `self.transform` (lines 74-77) on one RGB pixel already scaled by
`ToTensor` into `[0, 1]`: the single `(0.5,)` mean and std broadcast
over the three channels. -/
def TextImageDataset.transform (p : ℚ × ℚ × ℚ) : ℚ × ℚ × ℚ :=
  (normalizeChannel p.1, normalizeChannel p.2.1, normalizeChannel p.2.2)

/-- `TextImageDataset.__getitem__` (lines 82-86): look up the idx-th
text, render it, and return the (image, text) pair.  The per-pixel
normalisation `self.transform` acts on the rasterised pixels only and
is modelled separately by `TextImageDataset.transform`; it never
touches the returned text. -/
def TextImageDataset.getitem (d : TextImageDataset) (bidi : String → String)
    (idx : Nat) (h : idx < d.texts.length) : RenderSpec × String :=
  let text := d.texts.get ⟨idx, h⟩
  (d.render_text_image bidi text, text)

/-- A concrete font for witnesses and counterexamples: every string
measures to the ink box `(0, 6, 10, 16)` and the descent is 4 — the
typical shape of a short string of capital letters under a truetype
font, whose ink starts a few pixels below the ascender line. -/
def sampleFont : Font :=
  { bbox := fun _ => { left := 0, top := 6, right := 10, bottom := 16 }
    descent := 4 }

/-- A concrete dataset whose font loads successfully. -/
def sampleDataset : TextImageDataset :=
  { alphabet := ['a', 'b']
    max_length := 2
    fontLoad := Except.ok sampleFont
    defaultFont := sampleFont
    image_size := (20, 20)
    is_arabic := false }

/-- A concrete dataset whose font file fails to load. -/
def brokenFontDataset : TextImageDataset :=
  { alphabet := ['a', 'b']
    max_length := 1
    fontLoad := Except.error "cannot open resource"
    defaultFont := sampleFont
    image_size := (20, 20)
    is_arabic := false }

/-- A concrete dataset over the empty alphabet. -/
def emptyAlphabetDataset : TextImageDataset :=
  { alphabet := []
    max_length := 3
    fontLoad := Except.ok sampleFont
    defaultFont := sampleFont
    image_size := (20, 20)
    is_arabic := false }

theorem productRepeat_length (A : List Char) (n : Nat) :
    (productRepeat A n).length = A.length ^ n := by
  induction n with
  | zero => simp [productRepeat]
  | succ n ih =>
    simp [productRepeat, List.length_flatMap, Function.comp_def, List.length_map, ih,
      List.map_const', List.sum_replicate, smul_eq_mul, pow_succ, mul_comm]

theorem length_mem_productRepeat {A : List Char} {n : Nat} {cs : List Char}
    (h : cs ∈ productRepeat A n) : cs.length = n := by
  induction n generalizing cs with
  | zero =>
    simp [productRepeat] at h
    simp [h]
  | succ n ih =>
    simp only [productRepeat, List.mem_flatMap, List.mem_map] at h
    obtain ⟨c, _, t, ht, rfl⟩ := h
    simp [ih ht]

theorem generate_all_combinations_succ (A : List Char) (L : Nat) :
    generate_all_combinations A (L + 1)
      = generate_all_combinations A L
        ++ (productRepeat A (L + 1)).map (fun cs => String.mk cs) := by
  simp [generate_all_combinations, List.range_succ, List.flatMap_append]

theorem generate_all_combinations_length (A : List Char) (L : Nat) :
    (generate_all_combinations A L).length
      = ∑ k ∈ Finset.range (L + 1), A.length ^ k := by
  induction L with
  | zero => simp [generate_all_combinations]
  | succ L ih =>
    rw [generate_all_combinations_succ, List.length_append, ih, List.length_map,
      productRepeat_length, Finset.sum_range_succ (fun k => A.length ^ k) (L + 1)]

theorem productRepeat_nil (n : Nat) : productRepeat [] (n + 1) = [] := by
  simp [productRepeat]

theorem generate_all_combinations_nil (L : Nat) :
    generate_all_combinations [] L = [""] := by
  induction L with
  | zero => simp [generate_all_combinations]
  | succ L ih => rw [generate_all_combinations_succ, productRepeat_nil, ih]; rfl

theorem empty_not_mem_blocks (A : List Char) (L : Nat) :
    ("" : String) ∉ (List.range L).flatMap fun i =>
      (productRepeat A (i + 1)).map fun cs => String.mk cs := by
  intro hmem
  rw [List.mem_flatMap] at hmem
  obtain ⟨i, _, hmem⟩ := hmem
  rw [List.mem_map] at hmem
  obtain ⟨cs, hcs, heq⟩ := hmem
  have hlen := length_mem_productRepeat hcs
  have hnil : cs = [] := congrArg String.data heq
  rw [hnil] at hlen
  simp at hlen

theorem count_empty_generate (A : List Char) (L : Nat) :
    (generate_all_combinations A L).count "" = 1 := by
  unfold generate_all_combinations
  rw [List.count_append]
  rw [List.count_eq_zero.mpr (empty_not_mem_blocks A L)]
  rfl

theorem pairwise_lex_productRepeat {A : List Char} {r : Char → Char → Prop}
    (hA : A.Pairwise r) (n : Nat) : (productRepeat A n).Pairwise (List.Lex r) := by
  induction n with
  | zero => simp [productRepeat]
  | succ n ih =>
    rw [productRepeat, List.pairwise_flatMap]
    constructor
    · intro c _
      rw [List.pairwise_map]
      exact ih.imp fun h => List.Lex.cons h
    · refine hA.imp ?_
      intro a b hab x hx y hy
      rw [List.mem_map] at hx hy
      obtain ⟨t1, _, rfl⟩ := hx
      obtain ⟨t2, _, rfl⟩ := hy
      exact List.Lex.rel hab

theorem pairwise_indexOf_of_nodup {A : List Char} (h : A.Nodup) :
    A.Pairwise fun a b => List.indexOf a A < List.indexOf b A := by
  rw [List.pairwise_iff_get]
  intro i j hij
  rw [List.get_indexOf h i, List.get_indexOf h j]
  exact hij

/-- C1: for every alphabet of size A and every max_length L, the
dataset's length equals `∑ k in 0..L, A^k` — the number of strings of
length 0 through L over the alphabet with repetition, including the
empty string. -/
theorem C1_dataset_length (d : TextImageDataset) :
    d.len = ∑ k ∈ Finset.range (d.max_length + 1), d.alphabet.length ^ k :=
  generate_all_combinations_length d.alphabet d.max_length

/-- C6: the enumeration is stable (a function of the alphabet and
max_length alone), its first entry is the empty string, the empty
string occurs exactly once, and each length block lists the Cartesian
power of a duplicate-free alphabet in lexicographic order of alphabet
positions. -/
theorem C6_enumeration_order (d d' : TextImageDataset) (n : Nat)
    (hA : d.alphabet = d'.alphabet) (hL : d.max_length = d'.max_length)
    (hnd : d.alphabet.Nodup) :
    d.texts = d'.texts
    ∧ d.texts.head? = some ""
    ∧ d.texts.count "" = 1
    ∧ (productRepeat d.alphabet n).Pairwise
        (List.Lex fun a b => List.indexOf a d.alphabet < List.indexOf b d.alphabet) := by
  refine ⟨?_, ?_, ?_, ?_⟩
  · unfold TextImageDataset.texts
    rw [hA, hL]
  · rfl
  · exact count_empty_generate d.alphabet d.max_length
  · exact pairwise_lex_productRepeat (pairwise_indexOf_of_nodup hnd) n

/-- Witness for C6 at the concrete dataset over the alphabet `['a', 'b']`. -/
theorem C6_enumeration_order_witness :
    sampleDataset.texts = sampleDataset.texts
    ∧ sampleDataset.texts.head? = some ""
    ∧ sampleDataset.texts.count "" = 1
    ∧ (productRepeat sampleDataset.alphabet 2).Pairwise
        (List.Lex fun a b =>
          List.indexOf a sampleDataset.alphabet < List.indexOf b sampleDataset.alphabet) :=
  C6_enumeration_order sampleDataset sampleDataset 2 rfl rfl (by decide)

/-- C9: over an empty alphabet the dataset contains exactly one element,
the empty string, for every max_length. -/
theorem C9_empty_alphabet (d : TextImageDataset) (hA : d.alphabet = []) :
    d.texts = [""] ∧ d.len = 1 := by
  have h : d.texts = [""] := by
    unfold TextImageDataset.texts
    rw [hA]
    exact generate_all_combinations_nil d.max_length
  exact ⟨h, by simp [TextImageDataset.len, h]⟩

/-- Witness for C9 at the concrete empty-alphabet dataset with max_length 3. -/
theorem C9_empty_alphabet_witness :
    emptyAlphabetDataset.texts = [""] ∧ emptyAlphabetDataset.len = 1 :=
  C9_empty_alphabet emptyAlphabetDataset rfl

theorem positionsGet_center (W H tw th : Int) :
    positionsGet "center" W H tw th = ((W - tw).fdiv 2, (H - th).fdiv 2) := rfl

theorem positionsGet_bottom_left (W H tw th : Int) :
    positionsGet "bottom-left" W H tw th = (0, H - th) := rfl

theorem positionsGet_bottom_center (W H tw th : Int) :
    positionsGet "bottom-center" W H tw th = ((W - tw).fdiv 2, H - th) := rfl

theorem positionsGet_bottom_right (W H tw th : Int) :
    positionsGet "bottom-right" W H tw th = (W - tw, H - th) := rfl

theorem isBottomAnchor_center : isBottomAnchor "center" = false := rfl

theorem isBottomAnchor_iff (position : String) :
    isBottomAnchor position = true
      ↔ position = "bottom-left" ∨ position = "bottom-center" ∨ position = "bottom-right" := by
  simp [isBottomAnchor]

/-- C2: an anchor name outside the nine-entry table renders exactly as
"top-left": the image is identical, the draw origin is (0, 0), and no
descent adjustment is applied. -/
theorem C2_unknown_anchor (load : Except String Font) (font : Font)
    (bidi : String → String) (text : String) (image_size : Int × Int)
    (position : String) (arabic : Bool) (h : position ∉ anchorNames) :
    render_text_image load bidi text image_size position arabic
      = render_text_image load bidi text image_size "top-left" arabic
    ∧ (layout font bidi text image_size position arabic).origin = (0, 0)
    ∧ isBottomAnchor position = false := by
  simp only [anchorNames, List.mem_cons, List.not_mem_nil, or_false, not_or] at h
  obtain ⟨h1, h2, h3, h4, h5, h6, h7, h8, h9⟩ := h
  have hb : isBottomAnchor position = false := by
    simp [isBottomAnchor, h7, h8, h9]
  have horigin : ∀ g : Font, (layout g bidi text image_size position arabic).origin = (0, 0) := by
    intro g
    simp [layout, positionsGet, hb, h1, h2, h3, h4, h5, h6, h7, h8, h9]
  refine ⟨?_, horigin font, hb⟩
  cases load with
  | error e => rfl
  | ok g =>
    simp only [render_text_image, Except.ok.injEq]
    have htl : (layout g bidi text image_size "top-left" arabic).origin = (0, 0) := rfl
    have := horigin g
    simp only [layout] at this htl ⊢
    rw [this, htl]

/-- Witness for C2 at the unknown anchor name "middle". -/
theorem C2_unknown_anchor_witness :
    render_text_image (Except.ok sampleFont) id "Ab" (20, 20) "middle" false
      = render_text_image (Except.ok sampleFont) id "Ab" (20, 20) "top-left" false
    ∧ (layout sampleFont id "Ab" (20, 20) "middle" false).origin = (0, 0)
    ∧ isBottomAnchor "middle" = false :=
  C2_unknown_anchor (Except.ok sampleFont) sampleFont id "Ab" (20, 20) "middle" false
    (by decide)

/-- C3 counterexample: with `sampleFont` (ink box (0, 6, 10, 16)) on a
20×20 canvas the center-anchored draw origin is (5, 5), so the ink box
is (5, 11, 15, 21): top margin 11, bottom margin −1.  The rendered
bounding box is not vertically centered within the rounding tolerance,
because the code never subtracts the measured bbox's top offset. -/
theorem C3_center_ink_not_centered :
    ¬ vCentered 20 (inkBox sampleFont
      (layout sampleFont id "Ab" (20, 20) "center" false)) := by
  decide

/-- C3 amended: for anchor "center" the box of the measured text extents
placed at the draw origin is horizontally and vertically centered within
the one-pixel rounding tolerance; the actual ink bounding box is that
box translated by the measured bbox's (left, top) origin offsets, so the
ink itself is centered only when those offsets vanish. -/
theorem C3_center_measured_box_centered (font : Font) (bidi : String → String)
    (text : String) (W H : Int) (arabic : Bool) :
    hCentered W (measuredBox font (layout font bidi text (W, H) "center" arabic))
    ∧ vCentered H (measuredBox font (layout font bidi text (W, H) "center" arabic))
    ∧ (inkBox font (layout font bidi text (W, H) "center" arabic)).left
        = (measuredBox font (layout font bidi text (W, H) "center" arabic)).left
          + (font.bbox (bidiProcessed bidi arabic text)).left
    ∧ (inkBox font (layout font bidi text (W, H) "center" arabic)).top
        = (measuredBox font (layout font bidi text (W, H) "center" arabic)).top
          + (font.bbox (bidiProcessed bidi arabic text)).top := by
  have key : ∀ C e : Int, ((C - ((C - e).fdiv 2 + e)) - (C - e).fdiv 2).natAbs ≤ 1 := by
    intro C e
    rw [Int.fdiv_eq_ediv _ (by norm_num)]
    omega
  refine ⟨?_, ?_, ?_, ?_⟩ <;>
    simp [layout, positionsGet_center, isBottomAnchor_center, measuredBox, inkBox,
      hCentered, vCentered, text_width, text_height]
  · exact key W _
  · exact key H _

/-- C4 counterexample: with `sampleFont` (descent 4, ink top offset 6)
on a 20×20 canvas, the bottom-left draw origin is (0, 6) and the ink box
bottom is 22: the glyph's lowest pixel (row 21) lies below the canvas,
so the descent shift does not prevent vertical clipping. -/
theorem C4_bottom_still_clips :
    (inkBox sampleFont
      (layout sampleFont id "Ab" (20, 20) "bottom-left" false)).bottom > 20 := by
  decide

/-- C4 amended: for the three bottom anchors the draw origin's y is the
table value shifted up by the font's descent,
`y = H - text_height - descent`, and no other anchor receives the
shift; the ink's lowest pixel lies within the canvas exactly when the
measured bbox's top offset is at most the descent. -/
theorem C4_bottom_anchor_descent (font : Font) (bidi : String → String)
    (text : String) (W H : Int) (position : String) (arabic : Bool) :
    (isBottomAnchor position = true →
      (layout font bidi text (W, H) position arabic).origin.2
        = H - text_height font (bidiProcessed bidi arabic text) - font.descent
      ∧ ((inkBox font (layout font bidi text (W, H) position arabic)).bottom ≤ H
          ↔ (font.bbox (bidiProcessed bidi arabic text)).top ≤ font.descent))
    ∧ (isBottomAnchor position = false →
      (layout font bidi text (W, H) position arabic).origin
        = positionsGet position W H (text_width font (bidiProcessed bidi arabic text))
            (text_height font (bidiProcessed bidi arabic text))) := by
  constructor
  · intro hb
    have hp := (isBottomAnchor_iff position).mp hb
    rcases hp with rfl | rfl | rfl <;>
      constructor <;>
        simp [layout, inkBox, text_height, positionsGet_bottom_left,
          positionsGet_bottom_center, positionsGet_bottom_right, isBottomAnchor] <;>
        omega
  · intro hb
    simp [layout, hb]

/-- Witness for C4 at the concrete anchor "bottom-left" and `sampleFont`. -/
theorem C4_bottom_anchor_descent_witness :
    (layout sampleFont id "Ab" (20, 20) "bottom-left" false).origin.2
      = 20 - text_height sampleFont (bidiProcessed id false "Ab") - sampleFont.descent
    ∧ ((inkBox sampleFont
          (layout sampleFont id "Ab" (20, 20) "bottom-left" false)).bottom ≤ 20
        ↔ (sampleFont.bbox (bidiProcessed id false "Ab")).top ≤ sampleFont.descent) :=
  (C4_bottom_anchor_descent sampleFont id "Ab" 20 20 "bottom-left" false).1 (by decide)

/-- C5: when the font file loads successfully, the dataset renderer
produces exactly the image of the general renderer anchored at
"center". -/
theorem C5_dataset_center_refines (d : TextImageDataset) (f : Font)
    (bidi : String → String) (text : String) (h : d.fontLoad = Except.ok f) :
    TextImageDataset.render_text_image d bidi text
      = layout f bidi text d.image_size "center" d.is_arabic
    ∧ render_text_image d.fontLoad bidi text d.image_size "center" d.is_arabic
      = Except.ok (TextImageDataset.render_text_image d bidi text) := by
  have h1 : TextImageDataset.render_text_image d bidi text
      = layout f bidi text d.image_size "center" d.is_arabic := by
    simp [TextImageDataset.render_text_image, h, layout, positionsGet_center,
      isBottomAnchor_center]
  refine ⟨h1, ?_⟩
  rw [h, h1]
  rfl

/-- Witness for C5 at the concrete dataset whose font loads. -/
theorem C5_dataset_center_refines_witness :
    TextImageDataset.render_text_image sampleDataset id "ab"
      = layout sampleFont id "ab" sampleDataset.image_size "center" sampleDataset.is_arabic
    ∧ render_text_image sampleDataset.fontLoad id "ab" sampleDataset.image_size
        "center" sampleDataset.is_arabic
      = Except.ok (TextImageDataset.render_text_image sampleDataset id "ab") :=
  C5_dataset_center_refines sampleDataset sampleFont id "ab" rfl

/-- C7: a font-load failure propagates out of `render_text_image`
unchanged, while the dataset renderer catches it and renders with the
default font; a successful load makes the general renderer succeed with
the laid-out image. -/
theorem C7_font_error_paths (e : String) (f : Font) (d : TextImageDataset)
    (bidi : String → String) (text : String) (image_size : Int × Int)
    (position : String) (arabic : Bool) (hd : d.fontLoad = Except.error e) :
    render_text_image (Except.error e) bidi text image_size position arabic
      = Except.error e
    ∧ render_text_image (Except.ok f) bidi text image_size position arabic
      = Except.ok (layout f bidi text image_size position arabic)
    ∧ TextImageDataset.render_text_image d bidi text
      = layout d.defaultFont bidi text d.image_size "center" d.is_arabic := by
  refine ⟨rfl, rfl, ?_⟩
  simp [TextImageDataset.render_text_image, hd, layout, positionsGet_center,
    isBottomAnchor_center]

/-- Witness for C7 at the concrete dataset whose font fails to load. -/
theorem C7_font_error_paths_witness :
    render_text_image (Except.error "cannot open resource") id "ab" (20, 20) "center" false
      = Except.error "cannot open resource"
    ∧ render_text_image (Except.ok sampleFont) id "ab" (20, 20) "center" false
      = Except.ok (layout sampleFont id "ab" (20, 20) "center" false)
    ∧ TextImageDataset.render_text_image brokenFontDataset id "ab"
      = layout brokenFontDataset.defaultFont id "ab" brokenFontDataset.image_size
          "center" brokenFontDataset.is_arabic :=
  C7_font_error_paths "cannot open resource" sampleFont brokenFontDataset id "ab"
    (20, 20) "center" false rfl

/-- C8: the dataset normalisation is the affine map x ↦ (x − 0.5)/0.5
applied per channel; it carries [0, 1] into [−1, 1] and sends 0 to −1,
0.5 to 0 and 1 to 1. -/
theorem C8_normalization (x : ℚ) (p : ℚ × ℚ × ℚ) (h0 : 0 ≤ x) (h1 : x ≤ 1) :
    normalizeChannel x = (x - 0.5) / 0.5
    ∧ normalizeChannel x = 2 * x - 1
    ∧ -1 ≤ normalizeChannel x ∧ normalizeChannel x ≤ 1
    ∧ normalizeChannel 0 = -1
    ∧ normalizeChannel (1 / 2) = 0
    ∧ normalizeChannel 1 = 1
    ∧ TextImageDataset.transform p
      = (normalizeChannel p.1, normalizeChannel p.2.1, normalizeChannel p.2.2) := by
  have key : normalizeChannel x = 2 * x - 1 := by
    unfold normalizeChannel
    ring
  exact ⟨rfl, key, by rw [key]; linarith, by rw [key]; linarith,
    by norm_num [normalizeChannel], by norm_num [normalizeChannel],
    by norm_num [normalizeChannel], rfl⟩

/-- Witness for C8 at x = 1/2 and the pixel (0, 1/2, 1). -/
theorem C8_normalization_witness :
    normalizeChannel (1 / 2) = ((1 : ℚ) / 2 - 0.5) / 0.5
    ∧ normalizeChannel (1 / 2) = 2 * (1 / 2) - 1
    ∧ -1 ≤ normalizeChannel ((1 : ℚ) / 2) ∧ normalizeChannel ((1 : ℚ) / 2) ≤ 1
    ∧ normalizeChannel 0 = -1
    ∧ normalizeChannel (1 / 2) = 0
    ∧ normalizeChannel 1 = 1
    ∧ TextImageDataset.transform (0, 1 / 2, 1)
      = (normalizeChannel 0, normalizeChannel (1 / 2), normalizeChannel 1) :=
  C8_normalization (1 / 2) (0, 1 / 2, 1) (by norm_num) (by norm_num)

/-- C10: `__getitem__` returns the idx-th enumerated text unchanged as
the second pair component; the bidi processing reaches only the drawn
image. -/
theorem C10_getitem_label (d : TextImageDataset) (bidi : String → String)
    (idx : Nat) (h : idx < d.texts.length) :
    (TextImageDataset.getitem d bidi idx h).2 = d.texts.get ⟨idx, h⟩
    ∧ (TextImageDataset.getitem d bidi idx h).1.drawnText
      = bidiProcessed bidi d.is_arabic (d.texts.get ⟨idx, h⟩) :=
  ⟨rfl, rfl⟩

/-- Witness for C10 at index 1 of the concrete dataset. -/
theorem C10_getitem_label_witness :
    (TextImageDataset.getitem sampleDataset id 1 (by decide)).2
      = sampleDataset.texts.get ⟨1, by decide⟩
    ∧ (TextImageDataset.getitem sampleDataset id 1 (by decide)).1.drawnText
      = bidiProcessed id sampleDataset.is_arabic (sampleDataset.texts.get ⟨1, by decide⟩) :=
  C10_getitem_label sampleDataset id 1 (by decide)

theorem sample_generate_eval : generate_all_combinations ['a', 'b'] 2
    = ["", "a", "b", "aa", "ab", "ba", "bb"] := by decide

theorem sample_center_origin_eval :
    (layout sampleFont id "Ab" (20, 20) "center" false).origin = (5, 5) := by decide

theorem sample_center_ink_eval :
    inkBox sampleFont (layout sampleFont id "Ab" (20, 20) "center" false)
      = { left := 5, top := 11, right := 15, bottom := 21 } := by decide

end RoboKhutt
